import Mathlib

/-!
Verification of the `self-hosted-runner` workflow audit
(`src/audit/self_hosted_runner.rs`): a shallow embedding of the rule's
data model and of `SelfHostedRunner::audit`, together with theorems
settling the behavioural claims about the rule.
-/

set_option maxHeartbeats 1000000

namespace Zizmor

/-- Confidence levels of a finding (`finding::Confidence`). -/
inductive Confidence where
  | Unknown
  | Low
  | Medium
  | High
deriving DecidableEq, Repr

/-- Severity levels of a finding (`finding::Severity`). -/
inductive Severity where
  | Unknown
  | Informational
  | Low
  | Medium
  | High
deriving DecidableEq, Repr

/-- A job's runner declaration (`github_actions_models::workflow::job::RunsOn`):
either an ordered list of labels, or a runner group with optional labels. -/
inductive RunsOn where
  | Target (labels : List String)
  | Group (group : String) (labels : List String)
deriving DecidableEq, Repr

/-- The part of a normal job consumed by this rule: its `runs_on` declaration. -/
structure NormalJob where
  runs_on : RunsOn
deriving DecidableEq, Repr

/-- A workflow job (`github_actions_models::workflow::Job`): either a normal
job with a runner declaration, or a reusable-workflow call (which has none). -/
inductive Job where
  | NormalJob (j : NormalJob)
  | ReusableWorkflowCallJob (uses : String)
deriving DecidableEq, Repr

/-- A job as yielded by `workflow.jobs()`: the job body together with its
identifier, which determines its symbolic source location. -/
structure JobEntry where
  id : String
  job : Job
deriving DecidableEq, Repr

/-- A symbolic source location: which job it points into, the key path under
that job, and the human-readable text attached to it. -/
structure SymbolicLocation where
  jobId : String
  keys : List String
  annot : String
deriving DecidableEq, Repr

/-- `job.location()`: the symbolic location of the job itself. -/
def JobEntry.location (e : JobEntry) : SymbolicLocation :=
  ⟨e.id, [], ""⟩

/-- `SymbolicLocation::with_keys`: append keys to the location's key path. -/
def SymbolicLocation.with_keys (l : SymbolicLocation) (ks : List String) : SymbolicLocation :=
  ⟨l.jobId, l.keys ++ ks, l.annot⟩

/-- `SymbolicLocation::annotated`: attach an annotating text to the location. -/
def SymbolicLocation.annotated (l : SymbolicLocation) (a : String) : SymbolicLocation :=
  ⟨l.jobId, l.keys, a⟩

/-- A constructed finding: producing rule identity, confidence, severity and
the located annotations. -/
structure Finding where
  ident : String
  confidence : Confidence
  severity : Severity
  locations : List SymbolicLocation
deriving DecidableEq, Repr

/-- The environment of the Finding Builder collaborator: for each candidate
finding, either `none` (construction succeeds) or `some msg` (construction
fails with error `msg`, e.g. an invalid location key in the workflow). -/
def BuildEnv : Type := Finding → Option String

/-- The Finding Builder that always succeeds. -/
def noBuildErr : BuildEnv := fun _ => none

/-- The in-progress state of the fluent finding builder
(`Self::finding().confidence(..).severity(..).add_location(..)`). -/
structure FindingBuilder where
  ident : String
  confidence : Confidence
  severity : Severity
  locations : List SymbolicLocation
deriving DecidableEq, Repr

/-- `FindingBuilder::confidence`. -/
def FindingBuilder.withConfidence (b : FindingBuilder) (c : Confidence) : FindingBuilder :=
  ⟨b.ident, c, b.severity, b.locations⟩

/-- `FindingBuilder::severity`. -/
def FindingBuilder.withSeverity (b : FindingBuilder) (s : Severity) : FindingBuilder :=
  ⟨b.ident, b.confidence, s, b.locations⟩

/-- `FindingBuilder::add_location`. -/
def FindingBuilder.add_location (b : FindingBuilder) (l : SymbolicLocation) : FindingBuilder :=
  ⟨b.ident, b.confidence, b.severity, b.locations ++ [l]⟩

/-- `FindingBuilder::build(workflow)`: construct the finding, or propagate the
construction error the workflow environment assigns to it. -/
def FindingBuilder.build (b : FindingBuilder) (env : BuildEnv) : Except String Finding :=
  let f : Finding := ⟨b.ident, b.confidence, b.severity, b.locations⟩
  match env f with
  | none => Except.ok f
  | some e => Except.error e

/-- The audit configuration: the process-wide `pedantic` policy flag. -/
structure Config where
  pedantic : Bool
deriving DecidableEq, Repr

/-- `AuditState`: the state handed to every audit at construction. -/
structure AuditState where
  config : Config
deriving DecidableEq, Repr

/-- A workflow, as seen by this rule: its ordered job set. -/
structure Workflow where
  jobs : List JobEntry
deriving DecidableEq, Repr

/-- Modelled from the spec: `ExplicitExpr::from_curly` is provided by the
external workflow-model crate (`github_actions_models::common::expr`) and is
not part of this repository's sources. Per the spec's Expression Detector
contract, it succeeds exactly when the entire string is a single
interpolation expression wrapped in the recognized delimiter pair
`$\x7b\x7b ... \x7d\x7d`, returning the inner expression; partial matches,
malformed delimiters, strings merely containing the delimiter substrings,
and plain literals are rejected. -/
def ExplicitExpr.from_curly (s : String) : Option String :=
  match s.data with
  | '$' :: '\x7b' :: '\x7b' :: rest =>
    match rest.reverse with
    | '\x7d' :: '\x7d' :: innerRev => some (String.mk innerRev.reverse)
    | _ => none
  | _ => none

/-- The audit itself (`SelfHostedRunner`), carrying its construction state. -/
structure SelfHostedRunner where
  _state : AuditState
deriving DecidableEq, Repr

/-- `SelfHostedRunner::ident`. -/
def SelfHostedRunner.ident : String := "self-hosted-runner"

/-- `SelfHostedRunner::desc`. -/
def SelfHostedRunner.desc : String := "runs on a self-hosted runner"

/-- `SelfHostedRunner::new`. -/
def SelfHostedRunner.new (state : AuditState) : Except String SelfHostedRunner :=
  Except.ok ⟨state⟩

/-- `Self::finding()`: a fresh builder for this rule (defaults from
`FindingBuilder::new`: Unknown confidence, Unknown severity, no locations). -/
def SelfHostedRunner.finding : FindingBuilder :=
  ⟨SelfHostedRunner.ident, Confidence.Unknown, Severity.Unknown, []⟩

/-- One iteration of the `for job in workflow.jobs()` loop: the findings the
rule pushes for one job, or the propagated construction error. -/
def SelfHostedRunner.processJob (env : BuildEnv) (e : JobEntry) :
    Except String (List Finding) :=
  match e.job with
  | Job.ReusableWorkflowCallJob _ => Except.ok []
  | Job.NormalJob normal =>
    match normal.runs_on with
    | RunsOn.Target labels =>
      match labels.head? with
      | none => Except.ok []
      | some label =>
        if label = "self-hosted" then
          (((SelfHostedRunner.finding.withConfidence Confidence.High).withSeverity
              Severity.Unknown).add_location
            ((e.location.with_keys ["runs-on"]).annotated
              "self-hosted runner used here")).build env |>.map (fun f => [f])
        else if (ExplicitExpr.from_curly label).isSome then
          (((SelfHostedRunner.finding.withConfidence Confidence.Low).withSeverity
              Severity.Unknown).add_location
            ((e.location.with_keys ["runs-on"]).annotated
              "expression may expand into a self-hosted runner")).build env |>.map
            (fun f => [f])
        else
          Except.ok []
    | RunsOn.Group _ _ =>
      (((SelfHostedRunner.finding.withConfidence Confidence.Low).withSeverity
          Severity.Unknown).add_location
        ((e.location.with_keys ["runs-on"]).annotated
          "runner group implies self-hosted runner")).build env |>.map (fun f => [f])

/-- The whole job loop: accumulate each job's findings in order, aborting at
the first construction error (the behaviour of the `?` operator inside the
loop body). -/
def SelfHostedRunner.auditJobs (env : BuildEnv) : List JobEntry → Except String (List Finding)
  | [] => Except.ok []
  | e :: rest => do
    let fs ← SelfHostedRunner.processJob env e
    let more ← SelfHostedRunner.auditJobs env rest
    pure (fs ++ more)

/-- `SelfHostedRunner::audit`: the rule's evaluation entry point. The `env`
parameter stands for the workflow argument's effect on finding construction
(`.build(workflow)?`). -/
def SelfHostedRunner.audit (self : SelfHostedRunner) (env : BuildEnv) (wf : Workflow) :
    Except String (List Finding) :=
  if !self._state.config.pedantic then
    Except.ok []
  else
    SelfHostedRunner.auditJobs env wf.jobs

/-- The opening delimiter of an interpolation expression, as a string. -/
def exprOpen : String := String.mk ['$', '\x7b', '\x7b']

/-- The closing delimiter of an interpolation expression, as a string. -/
def exprClose : String := String.mk ['\x7d', '\x7d']

/-- A Finding Builder environment that fails (with an invalid-location-key
error) exactly on findings located in the job named `bad`. -/
def badBuild : BuildEnv := fun f =>
  if f.locations.any (fun l => l.jobId = "bad") then some "invalid location key" else none

/-- A job named `good` on a self-hosted runner, whose finding builds fine. -/
def goodJob : JobEntry := ⟨"good", Job.NormalJob ⟨RunsOn.Target ["self-hosted"]⟩⟩

/-- A job named `bad` on a self-hosted runner, whose finding fails to build
under `badBuild`. -/
def badJob : JobEntry := ⟨"bad", Job.NormalJob ⟨RunsOn.Target ["self-hosted"]⟩⟩

/-- The finding the rule produces for `goodJob`. -/
def goodFinding : Finding :=
  ⟨"self-hosted-runner", Confidence.High, Severity.Unknown,
    [⟨"good", ["runs-on"], "self-hosted runner used here"⟩]⟩

/-! ## Helper lemmas -/

/-- Appending job lists: the loop over `l₁ ++ l₂` first accumulates the
findings of `l₁` and then continues with `l₂`. -/
theorem auditJobs_append (env : BuildEnv) (l₁ l₂ : List JobEntry) (f₁ : List Finding)
    (h₁ : SelfHostedRunner.auditJobs env l₁ = Except.ok f₁) :
    SelfHostedRunner.auditJobs env (l₁ ++ l₂) =
      (SelfHostedRunner.auditJobs env l₂).map (fun f₂ => f₁ ++ f₂) := by
  induction l₁ generalizing f₁ with
  | nil =>
    simp only [SelfHostedRunner.auditJobs, Except.ok.injEq] at h₁
    subst h₁
    simp only [List.nil_append]
    cases h : SelfHostedRunner.auditJobs env l₂ <;> simp [h, Except.map]
  | cons e rest ih =>
    simp only [SelfHostedRunner.auditJobs, bind, Except.bind] at h₁
    cases hpe : SelfHostedRunner.processJob env e with
    | error msg => simp [hpe] at h₁
    | ok fs =>
      simp only [hpe] at h₁
      cases hr : SelfHostedRunner.auditJobs env rest with
      | error msg => simp [hr] at h₁
      | ok frest =>
        simp only [hr, pure, Except.pure, Except.ok.injEq] at h₁
        subst h₁
        have hih := ih frest hr
        rw [List.cons_append]
        simp only [SelfHostedRunner.auditJobs, bind, Except.bind, hpe, hih]
        cases SelfHostedRunner.auditJobs env l₂ <;>
          simp [Except.map, pure, Except.pure, List.append_assoc]

/-- The loop on a cons cell, when the head job's findings build successfully. -/
theorem auditJobs_cons_ok (env : BuildEnv) (e : JobEntry) (rest : List JobEntry)
    (fs : List Finding) (he : SelfHostedRunner.processJob env e = Except.ok fs) :
    SelfHostedRunner.auditJobs env (e :: rest) =
      (SelfHostedRunner.auditJobs env rest).map (fun f₂ => fs ++ f₂) := by
  simp only [SelfHostedRunner.auditJobs, bind, Except.bind, he]
  cases SelfHostedRunner.auditJobs env rest <;>
    simp [Except.map, pure, Except.pure]

/-- The loop on a cons cell, when building the head job's finding fails. -/
theorem auditJobs_cons_error (env : BuildEnv) (e : JobEntry) (rest : List JobEntry)
    (msg : String) (he : SelfHostedRunner.processJob env e = Except.error msg) :
    SelfHostedRunner.auditJobs env (e :: rest) = Except.error msg := by
  simp [SelfHostedRunner.auditJobs, bind, Except.bind, he]

/-- Loop body on a labeled job whose first label is `self-hosted`, under the
always-succeeding builder: one High/Unknown finding on the job's runs-on key. -/
theorem processJob_selfHosted (id : String) (rest : List String) :
    SelfHostedRunner.processJob noBuildErr
        ⟨id, Job.NormalJob ⟨RunsOn.Target ("self-hosted" :: rest)⟩⟩ =
      Except.ok [⟨"self-hosted-runner", Confidence.High, Severity.Unknown,
        [⟨id, ["runs-on"], "self-hosted runner used here"⟩]⟩] := by
  simp [SelfHostedRunner.processJob, SelfHostedRunner.finding, SelfHostedRunner.ident,
    FindingBuilder.withConfidence, FindingBuilder.withSeverity, FindingBuilder.add_location,
    FindingBuilder.build, JobEntry.location, SymbolicLocation.with_keys,
    SymbolicLocation.annotated, noBuildErr, Except.map]

/-- Loop body on a labeled job whose first label is not `self-hosted` but is a
well-formed interpolation, under the always-succeeding builder: one Low/Unknown
finding on the job's runs-on key. -/
theorem processJob_expr (id label : String) (rest : List String)
    (hne : label ≠ "self-hosted")
    (hexpr : (ExplicitExpr.from_curly label).isSome = true) :
    SelfHostedRunner.processJob noBuildErr
        ⟨id, Job.NormalJob ⟨RunsOn.Target (label :: rest)⟩⟩ =
      Except.ok [⟨"self-hosted-runner", Confidence.Low, Severity.Unknown,
        [⟨id, ["runs-on"], "expression may expand into a self-hosted runner"⟩]⟩] := by
  simp [SelfHostedRunner.processJob, SelfHostedRunner.finding, SelfHostedRunner.ident,
    FindingBuilder.withConfidence, FindingBuilder.withSeverity, FindingBuilder.add_location,
    FindingBuilder.build, JobEntry.location, SymbolicLocation.with_keys,
    SymbolicLocation.annotated, noBuildErr, Except.map, hne, hexpr]

/-- Loop body on a labeled job whose first label is neither `self-hosted` nor
an interpolation: no finding, for any builder environment. -/
theorem processJob_other_literal (env : BuildEnv) (id label : String) (rest : List String)
    (hne : label ≠ "self-hosted")
    (hnot : (ExplicitExpr.from_curly label).isSome = false) :
    SelfHostedRunner.processJob env
        ⟨id, Job.NormalJob ⟨RunsOn.Target (label :: rest)⟩⟩ = Except.ok [] := by
  simp [SelfHostedRunner.processJob, hne, hnot]

/-- Loop body on a grouped job, under the always-succeeding builder: one
Low/Unknown finding on the job's runs-on key. -/
theorem processJob_group (id g : String) (ls : List String) :
    SelfHostedRunner.processJob noBuildErr
        ⟨id, Job.NormalJob ⟨RunsOn.Group g ls⟩⟩ =
      Except.ok [⟨"self-hosted-runner", Confidence.Low, Severity.Unknown,
        [⟨id, ["runs-on"], "runner group implies self-hosted runner"⟩]⟩] := by
  simp [SelfHostedRunner.processJob, SelfHostedRunner.finding, SelfHostedRunner.ident,
    FindingBuilder.withConfidence, FindingBuilder.withSeverity, FindingBuilder.add_location,
    FindingBuilder.build, JobEntry.location, SymbolicLocation.with_keys,
    SymbolicLocation.annotated, noBuildErr, Except.map]

/-- Loop body on a labeled job with no labels at all: no finding, no error,
for any builder environment. -/
theorem processJob_empty_labels (env : BuildEnv) (id : String) :
    SelfHostedRunner.processJob env ⟨id, Job.NormalJob ⟨RunsOn.Target []⟩⟩ =
      Except.ok [] := rfl

/-- Loop body on a reusable-workflow-call job: skipped, for any builder
environment. -/
theorem processJob_reusable (env : BuildEnv) (id uses : String) :
    SelfHostedRunner.processJob env ⟨id, Job.ReusableWorkflowCallJob uses⟩ =
      Except.ok [] := rfl

/-! ## Claims -/

/-- C1: in pedantic mode, a job whose Labeled runner declaration has first
label exactly `self-hosted` contributes exactly one finding — confidence
High, severity Unknown, annotated "self-hosted runner used here" on the
job's runs-on key — regardless of the subsequent labels, with the other
jobs' contributions unchanged around it. -/
theorem audit_selfHosted_first_label_one_high_finding
    (self : SelfHostedRunner) (hped : self._state.config.pedantic = true)
    (pre post : List JobEntry) (fpre fpost : List Finding)
    (id : String) (rest : List String)
    (hpre : SelfHostedRunner.auditJobs noBuildErr pre = Except.ok fpre)
    (hpost : SelfHostedRunner.auditJobs noBuildErr post = Except.ok fpost) :
    self.audit noBuildErr
        ⟨pre ++ ⟨id, Job.NormalJob ⟨RunsOn.Target ("self-hosted" :: rest)⟩⟩ :: post⟩ =
      Except.ok (fpre ++
        ⟨"self-hosted-runner", Confidence.High, Severity.Unknown,
          [⟨id, ["runs-on"], "self-hosted runner used here"⟩]⟩ :: fpost) := by
  unfold SelfHostedRunner.audit
  rw [hped]
  simp only [Bool.not_true, Bool.false_eq_true, if_false]
  rw [auditJobs_append _ _ _ _ hpre,
    auditJobs_cons_ok _ _ _ _ (processJob_selfHosted id rest), hpost]
  simp [Except.map]

/-- Witness for C1 at a concrete job with labels
`["self-hosted", "linux", "x64"]`. -/
theorem audit_selfHosted_first_label_one_high_finding_witness :
    SelfHostedRunner.audit ⟨⟨⟨true⟩⟩⟩ noBuildErr
        ⟨[⟨"deploy", Job.NormalJob ⟨RunsOn.Target ["self-hosted", "linux", "x64"]⟩⟩]⟩ =
      Except.ok [⟨"self-hosted-runner", Confidence.High, Severity.Unknown,
        [⟨"deploy", ["runs-on"], "self-hosted runner used here"⟩]⟩] :=
  audit_selfHosted_first_label_one_high_finding ⟨⟨⟨true⟩⟩⟩ rfl [] [] [] []
    "deploy" ["linux", "x64"] rfl rfl

/-- C2: when the pedantic policy flag is false the rule returns the empty
finding sequence immediately, for every workflow and builder environment. -/
theorem audit_not_pedantic_returns_empty
    (self : SelfHostedRunner) (env : BuildEnv) (wf : Workflow)
    (hped : self._state.config.pedantic = false) :
    self.audit env wf = Except.ok [] := by
  unfold SelfHostedRunner.audit
  rw [hped]
  rfl

/-- Witness for C2 on a workflow that would otherwise fire the rule. -/
theorem audit_not_pedantic_returns_empty_witness :
    SelfHostedRunner.audit ⟨⟨⟨false⟩⟩⟩ noBuildErr
        ⟨[⟨"deploy", Job.NormalJob ⟨RunsOn.Target ["self-hosted"]⟩⟩]⟩ =
      Except.ok [] :=
  audit_not_pedantic_returns_empty ⟨⟨⟨false⟩⟩⟩ noBuildErr
    ⟨[⟨"deploy", Job.NormalJob ⟨RunsOn.Target ["self-hosted"]⟩⟩]⟩ rfl

/-- C3: in pedantic mode, a job with a Grouped runner declaration contributes
exactly one finding — confidence Low, severity Unknown, annotated "runner
group implies self-hosted runner" on the job's runs-on key — whatever the
group name and accompanying labels, with the other jobs' contributions
unchanged around it. -/
theorem audit_grouped_one_low_finding
    (self : SelfHostedRunner) (hped : self._state.config.pedantic = true)
    (pre post : List JobEntry) (fpre fpost : List Finding)
    (id g : String) (ls : List String)
    (hpre : SelfHostedRunner.auditJobs noBuildErr pre = Except.ok fpre)
    (hpost : SelfHostedRunner.auditJobs noBuildErr post = Except.ok fpost) :
    self.audit noBuildErr
        ⟨pre ++ ⟨id, Job.NormalJob ⟨RunsOn.Group g ls⟩⟩ :: post⟩ =
      Except.ok (fpre ++
        ⟨"self-hosted-runner", Confidence.Low, Severity.Unknown,
          [⟨id, ["runs-on"], "runner group implies self-hosted runner"⟩]⟩ :: fpost) := by
  unfold SelfHostedRunner.audit
  rw [hped]
  simp only [Bool.not_true, Bool.false_eq_true, if_false]
  rw [auditJobs_append _ _ _ _ hpre,
    auditJobs_cons_ok _ _ _ _ (processJob_group id g ls), hpost]
  simp [Except.map]

/-- Witness for C3 at a concrete grouped job with an accompanying label. -/
theorem audit_grouped_one_low_finding_witness :
    SelfHostedRunner.audit ⟨⟨⟨true⟩⟩⟩ noBuildErr
        ⟨[⟨"test", Job.NormalJob ⟨RunsOn.Group "ubuntu-runners" ["gpu"]⟩⟩]⟩ =
      Except.ok [⟨"self-hosted-runner", Confidence.Low, Severity.Unknown,
        [⟨"test", ["runs-on"], "runner group implies self-hosted runner"⟩]⟩] :=
  audit_grouped_one_low_finding ⟨⟨⟨true⟩⟩⟩ rfl [] [] [] []
    "test" "ubuntu-runners" ["gpu"] rfl rfl

/-- C4: in pedantic mode, a job whose Labeled runner declaration has a first
label that is not `self-hosted` but is a well-formed dynamic interpolation
contributes exactly one finding — confidence Low, severity Unknown,
annotated "expression may expand into a self-hosted runner" on the job's
runs-on key — with the other jobs' contributions unchanged around it. -/
theorem audit_expr_first_label_one_low_finding
    (self : SelfHostedRunner) (hped : self._state.config.pedantic = true)
    (pre post : List JobEntry) (fpre fpost : List Finding)
    (id label : String) (rest : List String)
    (hne : label ≠ "self-hosted")
    (hexpr : (ExplicitExpr.from_curly label).isSome = true)
    (hpre : SelfHostedRunner.auditJobs noBuildErr pre = Except.ok fpre)
    (hpost : SelfHostedRunner.auditJobs noBuildErr post = Except.ok fpost) :
    self.audit noBuildErr
        ⟨pre ++ ⟨id, Job.NormalJob ⟨RunsOn.Target (label :: rest)⟩⟩ :: post⟩ =
      Except.ok (fpre ++
        ⟨"self-hosted-runner", Confidence.Low, Severity.Unknown,
          [⟨id, ["runs-on"], "expression may expand into a self-hosted runner"⟩]⟩ ::
        fpost) := by
  unfold SelfHostedRunner.audit
  rw [hped]
  simp only [Bool.not_true, Bool.false_eq_true, if_false]
  rw [auditJobs_append _ _ _ _ hpre,
    auditJobs_cons_ok _ _ _ _ (processJob_expr id label rest hne hexpr), hpost]
  simp [Except.map]

/-- Witness for C4 at the concrete label `$\x7b\x7b matrix.os \x7d\x7d`. -/
theorem audit_expr_first_label_one_low_finding_witness :
    SelfHostedRunner.audit ⟨⟨⟨true⟩⟩⟩ noBuildErr
        ⟨[⟨"build", Job.NormalJob
            ⟨RunsOn.Target [exprOpen ++ " matrix.os " ++ exprClose]⟩⟩]⟩ =
      Except.ok [⟨"self-hosted-runner", Confidence.Low, Severity.Unknown,
        [⟨"build", ["runs-on"], "expression may expand into a self-hosted runner"⟩]⟩] :=
  audit_expr_first_label_one_low_finding ⟨⟨⟨true⟩⟩⟩ rfl [] [] [] []
    "build" (exprOpen ++ " matrix.os " ++ exprClose) [] (by decide) (by decide) rfl rfl

/-- C5: a job whose Labeled runner declaration has a first label that is a
literal other than `self-hosted` and not an interpolation contributes no
finding, whatever the subsequent labels: the surrounding jobs' contributions
are concatenated with nothing in between. -/
theorem audit_other_literal_no_finding
    (self : SelfHostedRunner) (hped : self._state.config.pedantic = true)
    (pre post : List JobEntry) (fpre fpost : List Finding)
    (id label : String) (rest : List String)
    (hne : label ≠ "self-hosted")
    (hnot : (ExplicitExpr.from_curly label).isSome = false)
    (hpre : SelfHostedRunner.auditJobs noBuildErr pre = Except.ok fpre)
    (hpost : SelfHostedRunner.auditJobs noBuildErr post = Except.ok fpost) :
    self.audit noBuildErr
        ⟨pre ++ ⟨id, Job.NormalJob ⟨RunsOn.Target (label :: rest)⟩⟩ :: post⟩ =
      Except.ok (fpre ++ fpost) := by
  unfold SelfHostedRunner.audit
  rw [hped]
  simp only [Bool.not_true, Bool.false_eq_true, if_false]
  rw [auditJobs_append _ _ _ _ hpre,
    auditJobs_cons_ok _ _ _ _ (processJob_other_literal noBuildErr id label rest hne hnot),
    hpost]
  simp [Except.map]

/-- Witness for C5 at the concrete labels `["ubuntu-latest", "self-hosted"]`:
the `self-hosted` in second position triggers nothing. -/
theorem audit_other_literal_no_finding_witness :
    SelfHostedRunner.audit ⟨⟨⟨true⟩⟩⟩ noBuildErr
        ⟨[⟨"lint", Job.NormalJob ⟨RunsOn.Target ["ubuntu-latest", "self-hosted"]⟩⟩]⟩ =
      Except.ok [] :=
  audit_other_literal_no_finding ⟨⟨⟨true⟩⟩⟩ rfl [] [] [] []
    "lint" "ubuntu-latest" ["self-hosted"] (by decide) (by decide) rfl rfl

/-- C8: a job whose Labeled runner declaration carries an empty label
sequence contributes no finding and causes no error, for every builder
environment: the rule's classification is total on this input. -/
theorem audit_empty_labels_no_finding
    (self : SelfHostedRunner) (env : BuildEnv)
    (hped : self._state.config.pedantic = true)
    (pre post : List JobEntry) (fpre fpost : List Finding) (id : String)
    (hpre : SelfHostedRunner.auditJobs env pre = Except.ok fpre)
    (hpost : SelfHostedRunner.auditJobs env post = Except.ok fpost) :
    self.audit env ⟨pre ++ ⟨id, Job.NormalJob ⟨RunsOn.Target []⟩⟩ :: post⟩ =
      Except.ok (fpre ++ fpost) := by
  unfold SelfHostedRunner.audit
  rw [hped]
  simp only [Bool.not_true, Bool.false_eq_true, if_false]
  rw [auditJobs_append _ _ _ _ hpre,
    auditJobs_cons_ok _ _ _ _ (processJob_empty_labels env id), hpost]
  simp [Except.map]

/-- Witness for C8 at a concrete empty-labeled job. -/
theorem audit_empty_labels_no_finding_witness :
    SelfHostedRunner.audit ⟨⟨⟨true⟩⟩⟩ noBuildErr
        ⟨[⟨"odd", Job.NormalJob ⟨RunsOn.Target []⟩⟩]⟩ = Except.ok [] :=
  audit_empty_labels_no_finding ⟨⟨⟨true⟩⟩⟩ noBuildErr rfl [] [] [] [] "odd" rfl rfl

/-- C10: a job that is not a normal job (a reusable-workflow call) is skipped
before any runner classification, contributing no finding even in pedantic
mode, for every builder environment. -/
theorem audit_reusable_job_skipped
    (self : SelfHostedRunner) (env : BuildEnv)
    (hped : self._state.config.pedantic = true)
    (pre post : List JobEntry) (fpre fpost : List Finding) (id uses : String)
    (hpre : SelfHostedRunner.auditJobs env pre = Except.ok fpre)
    (hpost : SelfHostedRunner.auditJobs env post = Except.ok fpost) :
    self.audit env ⟨pre ++ ⟨id, Job.ReusableWorkflowCallJob uses⟩ :: post⟩ =
      Except.ok (fpre ++ fpost) := by
  unfold SelfHostedRunner.audit
  rw [hped]
  simp only [Bool.not_true, Bool.false_eq_true, if_false]
  rw [auditJobs_append _ _ _ _ hpre,
    auditJobs_cons_ok _ _ _ _ (processJob_reusable env id uses), hpost]
  simp [Except.map]

/-- Witness for C10 at a concrete reusable-workflow-call job. -/
theorem audit_reusable_job_skipped_witness :
    SelfHostedRunner.audit ⟨⟨⟨true⟩⟩⟩ noBuildErr
        ⟨[⟨"call", Job.ReusableWorkflowCallJob "org/repo/.github/workflows/ci.yml"⟩]⟩ =
      Except.ok [] :=
  audit_reusable_job_skipped ⟨⟨⟨true⟩⟩⟩ noBuildErr rfl [] [] [] [] "call"
    "org/repo/.github/workflows/ci.yml" rfl rfl

/-- C7 (counterexample): with pedantic mode on, a workflow whose first job
(`good`) yields a finding that builds fine and whose second job (`bad`) hits a
finding-construction error does NOT return the first job's finding: the whole
audit invocation returns the construction error, so findings already produced
for other jobs are discarded rather than returned. -/
theorem audit_build_error_discards_counterexample :
    SelfHostedRunner.audit ⟨⟨⟨true⟩⟩⟩ badBuild ⟨[goodJob, badJob]⟩ =
        Except.error "invalid location key" ∧
      SelfHostedRunner.audit ⟨⟨⟨true⟩⟩⟩ badBuild ⟨[goodJob, badJob]⟩ ≠
        Except.ok [goodFinding] := by
  exact ⟨rfl, fun h => Except.noConfusion h⟩

/-- C7 (amended): a finding-construction failure on one job's finding aborts
the whole audit invocation for that workflow: the construction error is
propagated to the engine as the result of the call, findings already produced
for earlier jobs are discarded, and the remaining jobs are not processed. -/
theorem audit_build_error_aborts_invocation
    (self : SelfHostedRunner) (env : BuildEnv)
    (hped : self._state.config.pedantic = true)
    (pre post : List JobEntry) (fpre : List Finding) (e : JobEntry) (msg : String)
    (hpre : SelfHostedRunner.auditJobs env pre = Except.ok fpre)
    (he : SelfHostedRunner.processJob env e = Except.error msg) :
    self.audit env ⟨pre ++ e :: post⟩ = Except.error msg := by
  unfold SelfHostedRunner.audit
  rw [hped]
  simp only [Bool.not_true, Bool.false_eq_true, if_false]
  rw [auditJobs_append _ _ _ _ hpre, auditJobs_cons_error _ _ _ _ he]
  rfl

/-- Witness for the amended C7: the `good`/`bad` workflow under `badBuild`. -/
theorem audit_build_error_aborts_invocation_witness :
    SelfHostedRunner.audit ⟨⟨⟨true⟩⟩⟩ badBuild ⟨[goodJob] ++ badJob :: []⟩ =
      Except.error "invalid location key" :=
  audit_build_error_aborts_invocation ⟨⟨⟨true⟩⟩⟩ badBuild rfl
    [goodJob] [] [goodFinding] badJob "invalid location key" rfl rfl

/-- C9: the rule is deterministic — two invocations of the audit on the same
builder environment, state and workflow yield the same finding sequence, with
the same content in the same order; in this embedding the rule is a pure
function, so there is no hidden state to diverge on. -/
theorem audit_deterministic
    (self : SelfHostedRunner) (env : BuildEnv) (wf : Workflow)
    (r₁ r₂ : Except String (List Finding))
    (h₁ : r₁ = self.audit env wf) (h₂ : r₂ = self.audit env wf) : r₁ = r₂ :=
  h₁.trans h₂.symm

/-- Witness for C9: two evaluations of the audit on the `good` job agree. -/
theorem audit_deterministic_witness :
    (Except.ok [goodFinding] : Except String (List Finding)) = Except.ok [goodFinding] :=
  audit_deterministic ⟨⟨⟨true⟩⟩⟩ noBuildErr ⟨[goodJob]⟩
    (Except.ok [goodFinding]) (Except.ok [goodFinding]) rfl rfl

/-- C6: the Expression Detector succeeds on a label exactly when the entire
string is a single interpolation expression wrapped in the recognized
delimiter pair — i.e. it decomposes as `exprOpen ++ inner ++ exprClose`;
partial matches, malformed delimiters, strings merely containing the
delimiter substrings, and plain literals all classify as non-expressions. -/
theorem from_curly_isSome_iff (s : String) :
    (ExplicitExpr.from_curly s).isSome = true ↔
      ∃ inner : String, s = exprOpen ++ inner ++ exprClose := by
  constructor
  · intro h
    unfold ExplicitExpr.from_curly at h
    split at h
    next rest heq =>
      split at h
      next innerRev heq2 =>
        refine ⟨String.mk innerRev.reverse, String.ext ?_⟩
        rw [String.data_append, String.data_append, heq,
          List.reverse_eq_iff.mp heq2]
        simp [exprOpen, exprClose]
      next => simp at h
    next => simp at h
  · rintro ⟨inner, rfl⟩
    have hdata : (exprOpen ++ inner ++ exprClose).data =
        '$' :: '\x7b' :: '\x7b' :: (inner.data ++ ['\x7d', '\x7d']) := by
      simp [exprOpen, exprClose, String.data_append]
    unfold ExplicitExpr.from_curly
    rw [hdata]
    simp [List.reverse_append]

end Zizmor
